import Mathlib

/-!
Shallow embedding of the learning-management-system core from
src/403108393_403108411.py.

Python dicts are modelled as insertion-ordered association lists
(`List (String × α)`): assignment `d[k] = v` updates the existing entry in
place when the key is present and appends otherwise, matching CPython dict
semantics.  Python objects shared by reference (the `Student`/`Professor`
objects stored both in `lms.users` and inside courses / the logged-in dict)
are modelled by keeping one authoritative store (`LMS.users`) and storing
ids everywhere else, which is observationally equivalent for a
single-threaded program.  Floating-point grade values are modelled as
rationals.  The SHA-256 password hash is an abstract parameter
`hashPw : String → String`.
-/

namespace LMSModel

/-- Python dict lookup `d.get(k)` / `d[k]` on an association list. -/
def alookup {α : Type} (k : String) : List (String × α) → Option α
  | [] => none
  | (k', v) :: rest => if k' = k then some v else alookup k rest

/-- Python dict assignment `d[k] = v`: replace in place if the key exists
(keeping its position), otherwise append at the end. -/
def aset {α : Type} (k : String) (v : α) : List (String × α) → List (String × α)
  | [] => [(k, v)]
  | (k', v') :: rest =>
      if k' = k then (k', v) :: rest else (k', v') :: aset k v rest

/-- Python `k in d` on an association list. -/
def amem {α : Type} (k : String) (l : List (String × α)) : Bool :=
  (alookup k l).isSome

/-- Role tag distinguishing the `Student` and `Professor` subclasses of
`User` (source lines 27-36). -/
inductive UserType where
  | student
  | professor
deriving Repr, DecidableEq

/-- A user record: the common `User` fields (lines 12-19) together with the
role tag and the single role-specific list (`Student.enrolled_courses`,
line 30, or `Professor.courses`, line 36). `password` stores the hash, as
in the source (line 17). -/
structure UserRec where
  utype : UserType
  id : String
  name : String
  email : String
  password : String
  phone : String
  stay_logged_in : Bool
  courseList : List String
deriving Repr, DecidableEq

/-- `User.__init__` (lines 12-19) followed by the subclass constructor
that adds the empty role-specific list (lines 27-36). -/
def mkUser (hashPw : String → String) (utype : UserType) (id name email password phone : String) :
    UserRec :=
  { utype := utype
    id := id
    name := name
    email := email
    password := hashPw password
    phone := phone
    stay_logged_in := false
    courseList := [] }

/-- `User.check_password` (lines 23-24). -/
def check_password (hashPw : String → String) (u : UserRec) (password : String) : Bool :=
  hashPw password = u.password

/-- `ClassSchedule` (lines 68-75); stored but never validated. -/
structure ClassSchedule where
  day : String
  start_time : String
  end_time : String
deriving Repr, DecidableEq

/-- The default grade-component dict of `Course.__init__` (lines 47-53). -/
def defaultGradeComponents : List (String × Rat) :=
  [("Quiz 1", 0), ("Midterm", 0), ("Quiz 2", 0), ("Final", 0), ("Assignments", 0)]

/-- `Course` (lines 39-55).  `professor` holds the owning professor; the
object reference of the source is modelled by the professor's id.
`students` holds the enrolled students in insertion order (object
references modelled by student ids).  `capacity` is an `Int` because
`create_course` accepts any parsed Python integer, including zero and
negative values. -/
structure Course where
  id : String
  name : String
  professorId : String
  capacity : Int
  students : List String
  schedules : List ClassSchedule
  grade_components : List (String × Rat)
  student_grades : List (String × List (String × Rat))
  is_grades_visible : Bool
deriving Repr, DecidableEq

/-- `Course.__init__` (lines 40-55). -/
def mkCourse (id name professorId : String) (capacity : Int) : Course :=
  { id := id
    name := name
    professorId := professorId
    capacity := capacity
    students := []
    schedules := []
    grade_components := defaultGradeComponents
    student_grades := []
    is_grades_visible := false }

/-- Outcome printed by `Course.add_student`: the success message or
"Course is full!". -/
inductive EnrollOutcome where
  | enrolled
  | courseFull
deriving Repr, DecidableEq

/-- `Course.add_student` (lines 57-65).  Mutates both the course and the
student object (which is shared with the user registry), so it returns the
updated course and the updated student record.  Note: no duplicate check
and no call to `save_data`. -/
def Course.add_student (c : Course) (s : UserRec) : Course × UserRec × EnrollOutcome :=
  if (c.students.length : Int) < c.capacity then
    ({ c with
        students := c.students ++ [s.id]
        student_grades :=
          aset s.id (c.grade_components.map (fun p => (p.1, (0 : Rat)))) c.student_grades },
     { s with courseList := s.courseList ++ [c.id] },
     EnrollOutcome.enrolled)
  else
    (c, s, EnrollOutcome.courseFull)

/-- One user entry of the JSON file written by `save_data` (lines 206-221):
role tag, the common fields, and the role-specific course list (stored
under the key `enrolled_courses` or `courses` depending on the tag; the
key name is determined by `utype`, so a single field suffices). -/
structure SavedUser where
  utype : String
  id : String
  name : String
  email : String
  password : String
  phone : String
  stay_logged_in : Bool
  roleList : List String
deriving Repr, DecidableEq

/-- The JSON document written by `save_data` (lines 204-226).  The
`courses` entry of the document is always the empty dict (line 222), so
only the users mapping carries data. -/
structure SavedData where
  users : List (String × SavedUser)
deriving Repr, DecidableEq

/-- Serialization of one user inside `save_data` (lines 208-219). -/
def serializeUser (u : UserRec) : SavedUser :=
  { utype := if u.utype = UserType.student then "Student" else "Professor"
    id := u.id
    name := u.name
    email := u.email
    password := u.password
    phone := u.phone
    stay_logged_in := u.stay_logged_in
    roleList := u.courseList }

/-- The pure content of `save_data` (lines 204-226): serialize every user;
courses are dropped. -/
def save_users (users : List (String × UserRec)) : SavedData :=
  { users := users.map (fun p => (p.1, serializeUser p.2)) }

/-- Reconstruction of one user in `load_data` (lines 238-251): the
constructor is invoked with password `''` and the resulting hash is
immediately overwritten by the stored hash (line 246), so the net effect
is to copy every stored field. -/
def load_user (d : SavedUser) : UserRec :=
  { utype := if d.utype = "Student" then UserType.student else UserType.professor
    id := d.id
    name := d.name
    email := d.email
    password := d.password
    phone := d.phone
    stay_logged_in := d.stay_logged_in
    courseList := d.roleList }

/-- `load_data` (lines 228-255) run on a present file: starting from the
empty registry of `__init__`, insert every stored user and add to the
logged-in dict exactly those whose `stay_logged_in` flag is set
(lines 254-255).  Returns the rebuilt `users` map and the logged-in id
set. -/
def load_users (d : SavedData) : List (String × UserRec) × List String :=
  d.users.foldl
    (fun acc p =>
      let u := load_user p.2
      (aset p.1 u acc.1, if u.stay_logged_in then acc.2 ++ [p.1] else acc.2))
    ([], [])

/-- The `LearningManagementSystem` state (lines 78-83) together with the
durable file `lms_data.json`.  `logged_in_users` maps ids to the same
objects stored in `users`, so it is modelled as the list of its keys.
`file = none` models a missing file. -/
structure LMS where
  users : List (String × UserRec)
  courses : List (String × Course)
  logged_in_users : List String
  file : Option SavedData
deriving Repr, DecidableEq

/-- `save_data` (lines 204-226): overwrite the durable file with the
serialized users (courses are dropped). -/
def save_data (lms : LMS) : LMS :=
  { lms with file := some (save_users lms.users) }

/-- `__init__` plus `load_data` (lines 79-83, 228-255): empty state, then
load from the file when it exists. -/
def initLMS (file : Option SavedData) : LMS :=
  match file with
  | none => { users := [], courses := [], logged_in_users := [], file := none }
  | some d =>
      let p := load_users d
      { users := p.1, courses := [], logged_in_users := p.2, file := some d }

/-- `register_user` (lines 101-128).  Console input is passed as
arguments: the menu selector, the profile fields, and `genId`, the id
produced by `generate_student_id` / `generate_professor_id` (a random
digit string retried until absent from `users`; the retry loop is modelled
by passing its result, constrained to be fresh where a claim needs it).
Returns the new state and the registered user (`none` on an invalid
selector, in which case nothing is stored and nothing is saved). -/
def register_user (hashPw : String → String) (lms : LMS)
    (userType name email password phone genId : String) : LMS × Option UserRec :=
  if userType = "1" then
    let u := mkUser hashPw UserType.student genId name email password phone
    (save_data { lms with users := aset genId u lms.users }, some u)
  else if userType = "2" then
    let u := mkUser hashPw UserType.professor genId name email password phone
    (save_data { lms with users := aset genId u lms.users }, some u)
  else
    (lms, none)

/-- `login` (lines 130-152).  If `id` is already logged in, the stored
session object (the registry entry for `id`) is returned at once, before
the password prompt.  Otherwise checks the password, records the
stay-logged-in choice on the user, adds the user to the logged-in dict
exactly when that choice is true, saves, and returns the user; on bad
credentials returns `none` with nothing changed. -/
def login (hashPw : String → String) (lms : LMS) (id password : String) (stay : Bool) :
    LMS × Option UserRec :=
  if id ∈ lms.logged_in_users then
    (lms, alookup id lms.users)
  else
    match alookup id lms.users with
    | some u =>
        if check_password hashPw u password then
          let u' := { u with stay_logged_in := stay }
          let lms' :=
            { lms with
                users := aset id u' lms.users
                logged_in_users :=
                  if stay then lms.logged_in_users ++ [id] else lms.logged_in_users }
          (save_data lms', some u')
        else (lms, none)
    | none => (lms, none)

/-- `logout` (lines 382-389): for a known user, clear the flag, drop the
id from the logged-in dict if present, and save; unknown ids are
ignored. -/
def logout (lms : LMS) (userId : String) : LMS :=
  match alookup userId lms.users with
  | some u =>
      save_data
        { lms with
            users := aset userId { u with stay_logged_in := false } lms.users
            logged_in_users := lms.logged_in_users.filter (fun x => x ≠ userId) }
  | none => lms

/-- The enrollment path of `student_menu` choice 2 (lines 167-170):
`self.courses[course_id].add_student(student)` when the course exists,
where `student` is the logged-in student object (hence present in
`users`).  Both the mutated course and the mutated student are written
back to the shared stores.  No `save_data` call occurs on this path. -/
def enroll (lms : LMS) (courseId sid : String) : LMS :=
  match alookup courseId lms.courses, alookup sid lms.users with
  | some c, some s =>
      let r := c.add_student s
      { lms with
          courses := aset courseId r.1 lms.courses
          users := aset sid r.2.1 lms.users }
  | _, _ => lms

/-- `create_course` (lines 266-284).  `capacityInput` is the result of
`int(...)` on the console string, `none` modelling a `ValueError` (and
only that: any parsed integer, including zero and negatives, is
accepted).  `idCands` is the stream of `random.randint(1000, 9999)` draws;
the collision-retry loop picks the first draw whose decimal string is not
an existing course id (an exhausted stream models the loop not
terminating and leaves the state unchanged).  On success the course is
registered, its id appended to the professor's list, and the state saved.
The returned option is the printed outcome: the new course id, or `none`
for "Invalid capacity!". -/
def create_course (lms : LMS) (professorId cname : String) (capacityInput : Option Int)
    (idCands : List Nat) : LMS × Option String :=
  match capacityInput with
  | none => (lms, none)
  | some capacity =>
      match idCands.find? (fun n => !amem (toString n) lms.courses),
            alookup professorId lms.users with
      | some n, some prof =>
          let courseId := toString n
          let course := mkCourse courseId cname professorId capacity
          let prof' := { prof with courseList := prof.courseList ++ [courseId] }
          (save_data
            { lms with
                courses := aset courseId course lms.courses
                users := aset professorId prof' lms.users },
           some courseId)
      | _, _ => (lms, none)

/-- One grade-entry step of the `manage_grades` loop body (lines 302-306):
`float(input(...))` either parses (`some g`) or raises `ValueError`
(`none`, printing a message and leaving the score unchanged); on success
`course.student_grades[student.id][component] = grade` overwrites the
entry.  When the student has no grade record the subscript raises an
uncaught `KeyError`, modelled by the outer `none`. -/
def set_grade_cell (sg : List (String × List (String × Rat))) (sid comp : String)
    (v : Option Rat) : Option (List (String × List (String × Rat))) :=
  match v with
  | none => some sg
  | some g =>
      match alookup sid sg with
      | some rec => some (aset sid (aset comp g rec) sg)
      | none => none

/-- The grade-entry double loop of `manage_grades` choice 1
(lines 298-306): for every enrolled student, for every declared component,
read a value and apply `set_grade_cell`.  `inp sid comp` is the console
input for that cell, `none` modelling a `ValueError`. -/
def enter_grades (c : Course) (inp : String → String → Option Rat) : Option Course :=
  (c.students.foldl
    (fun acc sid =>
      c.grade_components.foldl
        (fun acc2 p =>
          match acc2 with
          | none => none
          | some sg => set_grade_cell sg sid p.1 (inp sid p.1))
        acc)
    (some c.student_grades)).map
    (fun sg => { c with student_grades := sg })

/-- `manage_grades` (lines 286-315).  Console input: the course id, the
menu choice, and the per-cell grade inputs.  A course id outside the
professor's list, or an unknown menu choice, returns with nothing changed
and nothing saved.  Choice "1" runs the grade-entry loops, choice "2"
flips `is_grades_visible`; both then call `save_data`.  The professor
argument is the logged-in professor object, looked up by id; `none`
models the uncaught `KeyError` of line 294 when the course id is in the
professor's list but absent from `courses` (possible after a reload,
since courses are never persisted). -/
def manage_grades (lms : LMS) (professorId courseId choice : String)
    (inp : String → String → Option Rat) : Option LMS :=
  match alookup professorId lms.users with
  | none => some lms
  | some prof =>
      if courseId ∈ prof.courseList then
        match alookup courseId lms.courses with
        | none => none
        | some course =>
            if choice = "1" then
              match enter_grades course inp with
              | none => none
              | some course' =>
                  some (save_data { lms with courses := aset courseId course' lms.courses })
            else if choice = "2" then
              let course' := { course with is_grades_visible := !course.is_grades_visible }
              some (save_data { lms with courses := aset courseId course' lms.courses })
            else some lms
      else some lms

/-- What `view_student_grades` (lines 354-370) prints for one course id on
the student's enrolled list. -/
inductive GradesView where
  | missing
  | hidden
  | visible (grades : List (String × Rat)) (total : Rat)
deriving Repr, DecidableEq

/-- The per-course body of `view_student_grades` (lines 357-370): a course
id no longer in `courses` prints a missing-course line; a course whose
grades are not visible prints the hidden message regardless of stored
grades; otherwise the stored per-component scores
(`student_grades.get(student.id, ... )` defaulting to the empty dict) are
printed together with their sum. -/
def view_course_grades (lms : LMS) (sid courseId : String) : GradesView :=
  match alookup courseId lms.courses with
  | none => GradesView.missing
  | some c =>
      if c.is_grades_visible then
        let grades := (alookup sid c.student_grades).getD []
        GradesView.visible grades (grades.foldl (fun a p => a + p.2) 0)
      else GradesView.hidden

/-! ### Association-list lemmas -/

theorem alookup_aset_self {α : Type} (k : String) (v : α) (l : List (String × α)) :
    alookup k (aset k v l) = some v := by
  induction l with
  | nil => simp [aset, alookup]
  | cons hd tl ih =>
      by_cases h : hd.1 = k
      · simp [aset, alookup, h]
      · simp [aset, alookup, h, ih]

theorem alookup_aset_ne {α : Type} {k' k : String} (v : α) (l : List (String × α))
    (h : k' ≠ k) : alookup k (aset k' v l) = alookup k l := by
  induction l with
  | nil => simp [aset, alookup, h]
  | cons hd tl ih =>
      by_cases h1 : hd.1 = k'
      · simp [aset, alookup, h1, h]
      · by_cases h2 : hd.1 = k
        · simp [aset, alookup, h1, h2, Ne.symm h]
        · simp [aset, alookup, h1, h2, ih]

theorem aset_of_alookup_none {α : Type} {k : String} {l : List (String × α)} (v : α)
    (h : alookup k l = none) : aset k v l = l ++ [(k, v)] := by
  induction l with
  | nil => simp [aset]
  | cons hd tl ih =>
      by_cases h1 : hd.1 = k
      · simp [alookup, h1] at h
      · simp [alookup, h1] at h
        simp [aset, h1, ih h]

theorem alookup_append_left {α : Type} {k : String} {l1 : List (String × α)} {v : α}
    (l2 : List (String × α)) (h : alookup k l1 = some v) :
    alookup k (l1 ++ l2) = some v := by
  induction l1 with
  | nil => simp [alookup] at h
  | cons hd tl ih =>
      by_cases h1 : hd.1 = k
      · simp [alookup, h1] at h ⊢; exact h
      · simp [alookup, h1] at h ⊢; exact ih h

theorem alookup_append_right {α : Type} {k : String} {l1 : List (String × α)}
    (l2 : List (String × α)) (h : alookup k l1 = none) :
    alookup k (l1 ++ l2) = alookup k l2 := by
  induction l1 with
  | nil => simp [alookup]
  | cons hd tl ih =>
      by_cases h1 : hd.1 = k
      · simp [alookup, h1] at h
      · simp [alookup, h1] at h ⊢; exact ih h

theorem alookup_isSome_iff {α : Type} (k : String) (l : List (String × α)) :
    (alookup k l).isSome = true ↔ k ∈ l.map Prod.fst := by
  induction l with
  | nil => simp [alookup]
  | cons hd tl ih =>
      by_cases h : hd.1 = k
      · simp [alookup, h]
      · simp [alookup, h, ih]
        intro h2
        exact absurd h2.symm h

theorem alookup_none_of_not_mem {α : Type} {k : String} {l : List (String × α)}
    (h : k ∉ l.map Prod.fst) : alookup k l = none := by
  cases h2 : alookup k l with
  | none => rfl
  | some v =>
      exact absurd ((alookup_isSome_iff k l).mp (by simp [h2])) h

theorem aset_map_fst_of_mem {α : Type} {k : String} {l : List (String × α)} (v : α)
    (h : k ∈ l.map Prod.fst) : (aset k v l).map Prod.fst = l.map Prod.fst := by
  induction l with
  | nil => simp at h
  | cons hd tl ih =>
      by_cases h1 : hd.1 = k
      · simp [aset, h1]
      · rw [List.map_cons] at h
        rcases List.mem_cons.mp h with h2 | h2
        · exact absurd h2.symm h1
        · simp [aset, h1, ih h2]

theorem aset_map_fst_nodup {α : Type} {k : String} {l : List (String × α)} (v : α)
    (h : (l.map Prod.fst).Nodup) : ((aset k v l).map Prod.fst).Nodup := by
  by_cases hm : k ∈ l.map Prod.fst
  · rw [aset_map_fst_of_mem v hm]; exact h
  · rw [aset_of_alookup_none v (alookup_none_of_not_mem hm)]
    simp [List.nodup_append, h, hm]

/-! ### Concrete fixtures used by witnesses and counterexamples -/

/-- Concrete stand-in for the SHA-256 hash in closed statements. -/
def hashX : String → String := fun s => String.append s "#"

def profX : UserRec := mkUser hashX UserType.professor "1001" "Prof" "p@u.edu" "pw" "555"

def studX : UserRec := mkUser hashX UserType.student "400000001" "Stu" "s@u.edu" "pw" "556"

def studX2 : UserRec := mkUser hashX UserType.student "400000002" "Stu2" "s2@u.edu" "pw2" "557"

/-- A registry holding one professor and two students, no courses, nobody
logged in, no durable file yet. -/
def lmsX : LMS :=
  { users := [("1001", profX), ("400000001", studX), ("400000002", studX2)]
    courses := []
    logged_in_users := []
    file := none }

/-- `lmsX` after the professor creates course 1234 with capacity 3. -/
def lmsXc : LMS := (create_course lmsX "1001" "Math" (some 3) [1234]).1

/-! ### C1 -/

/-- A sequence of `add_student` calls against one course, writing back the
course each time (the student objects are updated too, but only the course
is needed for the capacity invariant). -/
def enrollAll (c : Course) (ss : List UserRec) : Course :=
  ss.foldl (fun c s => (c.add_student s).1) c

theorem add_student_capacity (c : Course) (s : UserRec) :
    (c.add_student s).1.capacity = c.capacity := by
  unfold Course.add_student
  split <;> rfl

theorem add_student_len (c : Course) (s : UserRec)
    (h : (c.students.length : Int) ≤ c.capacity) :
    ((c.add_student s).1.students.length : Int) ≤ c.capacity := by
  unfold Course.add_student
  split
  · rename_i hlt
    simp only [List.length_append, List.length_cons, List.length_nil]
    push_cast
    omega
  · exact h

theorem enrollAll_capacity (ss : List UserRec) (c : Course) :
    (enrollAll c ss).capacity = c.capacity := by
  induction ss generalizing c with
  | nil => rfl
  | cons s tl ih =>
      simp only [enrollAll, List.foldl_cons]
      rw [show List.foldl (fun c s => (c.add_student s).1) ((c.add_student s).1) tl
            = enrollAll (c.add_student s).1 tl from rfl]
      rw [ih, add_student_capacity]

theorem enrollAll_le (ss : List UserRec) (c : Course)
    (h : (c.students.length : Int) ≤ c.capacity) :
    ((enrollAll c ss).students.length : Int) ≤ c.capacity := by
  induction ss generalizing c with
  | nil => exact h
  | cons s tl ih =>
      simp only [enrollAll, List.foldl_cons]
      rw [show List.foldl (fun c s => (c.add_student s).1) ((c.add_student s).1) tl
            = enrollAll (c.add_student s).1 tl from rfl]
      have h2 := add_student_len c s h
      rw [← add_student_capacity c s] at h2
      have := ih (c.add_student s).1 h2
      rw [add_student_capacity] at this
      exact this

/-- C1 (amended: capacity restricted to nonnegative values, since
`create_course` accepts any parsed integer): starting from a freshly
created course with nonnegative capacity, after any sequence of enroll
calls the number of enrolled students never exceeds the capacity; and an
enroll attempted on any course whose student count equals its capacity
fails with CourseFull and leaves the course (student list, grade records)
and the student (enrolled-course list) unchanged. -/
theorem C1_capacity_invariant (id name pid : String) (cap : Int) (hcap : 0 ≤ cap)
    (ss : List UserRec) (c : Course) (s : UserRec)
    (hfull : (c.students.length : Int) = c.capacity) :
    ((enrollAll (mkCourse id name pid cap) ss).students.length : Int)
        ≤ (enrollAll (mkCourse id name pid cap) ss).capacity
    ∧ c.add_student s = (c, s, EnrollOutcome.courseFull) := by
  constructor
  · rw [enrollAll_capacity]
    have h0 : (((mkCourse id name pid cap).students.length : Int))
        ≤ (mkCourse id name pid cap).capacity := by
      simp [mkCourse]
      exact hcap
    exact enrollAll_le ss _ h0
  · have hng : ¬ ((c.students.length : Int) < c.capacity) := by omega
    simp [Course.add_student, hng]

/-- Course 2000 with capacity 1 after one successful enrollment: it is
exactly full. -/
def fullX : Course := ((mkCourse "2000" "n" "1001" 1).add_student studX).1

/-- Witness for C1 at a concrete full course. -/
theorem C1_capacity_invariant_w :
    ((enrollAll (mkCourse "2000" "n" "1001" 1) [studX, studX2]).students.length : Int)
        ≤ (enrollAll (mkCourse "2000" "n" "1001" 1) [studX, studX2]).capacity
    ∧ fullX.add_student studX2 = (fullX, studX2, EnrollOutcome.courseFull) :=
  C1_capacity_invariant "2000" "n" "1001" 1 (by decide) [studX, studX2] fullX studX2
    (by decide)

/-- C1 as frozen is false: `create_course` accepts a negative capacity
(only a parse failure is caught), and for such a course the invariant
`len(enrolledStudentIds) <= capacity` does not hold after an enroll
call. -/
theorem C1_claim_cex :
    (create_course lmsX "1001" "NegCap" (some (-1)) [1234]).2 = some "1234" ∧
    ((alookup "1234"
        (enroll (create_course lmsX "1001" "NegCap" (some (-1)) [1234]).1
          "1234" "400000001").courses).map
      (fun c => decide ((c.students.length : Int) ≤ c.capacity))) = some false := by
  decide

/-! ### C2 -/

theorem load_user_serializeUser (u : UserRec) : load_user (serializeUser u) = u := by
  cases u with
  | mk ut id name email password phone stay cl =>
      cases ut <;> simp [load_user, serializeUser]

theorem load_save_aux (us : List (String × UserRec)) (acc : List (String × UserRec))
    (lg : List String) (hn : (us.map Prod.fst).Nodup)
    (hd : ∀ k ∈ us.map Prod.fst, alookup k acc = none) :
    ((us.map (fun p => (p.1, serializeUser p.2))).foldl
      (fun a p =>
        let u := load_user p.2
        (aset p.1 u a.1, if u.stay_logged_in then a.2 ++ [p.1] else a.2))
      (acc, lg)).1 = acc ++ us := by
  induction us generalizing acc lg with
  | nil => simp
  | cons p tl ih =>
      simp only [List.map_cons, List.foldl_cons, load_user_serializeUser]
      have hfresh : alookup p.1 acc = none := hd p.1 (by simp)
      rw [aset_of_alookup_none p.2 hfresh]
      rw [List.map_cons, List.nodup_cons] at hn
      have hd' : ∀ k ∈ tl.map Prod.fst, alookup k (acc ++ [(p.1, p.2)]) = none := by
        intro k hk
        have hne : p.1 ≠ k := fun he => hn.1 (he ▸ hk)
        rw [alookup_append_right _ (hd k (by simp [hk]))]
        simp [alookup, hne]
      rw [ih (acc ++ [(p.1, p.2)]) _ hn.2 hd']
      simp

/-- C2: loading the durable file produced by save restores the user
registry exactly — every user record (role tag, id, name, email, phone,
password hash, stay-logged-in flag and the role-specific course list) is
recovered unchanged, under the dictionary guarantee that the stored user
ids are distinct. -/
theorem C2_roundtrip (users : List (String × UserRec))
    (h : (users.map Prod.fst).Nodup) :
    (load_users (save_users users)).1 = users := by
  have := load_save_aux users [] [] h (fun k _ => rfl)
  simpa [load_users, save_users] using this

/-- Witness for C2 on a concrete three-user registry. -/
theorem C2_roundtrip_w : (load_users (save_users lmsX.users)).1 = lmsX.users :=
  C2_roundtrip lmsX.users (by decide)

/-! ### C3 -/

/-- The durable file equals the serialization of the current in-memory
user registry, i.e. the state `save_data` leaves behind. -/
def flushed (lms : LMS) : Prop := lms.file = some (save_users lms.users)

theorem flushed_save_data (lms : LMS) : flushed (save_data lms) := rfl

/-- C3 (amended): register (valid role), login (fresh successful login),
logout (known user), createCourse (success) and manage_grades (grade entry
or visibility toggle, i.e. every path of it that mutates state) all invoke
save before returning, leaving the durable file equal to the serialization
of the updated registry; enroll, however, never invokes save — the durable
file is bit-for-bit unchanged by an enroll even though enroll mutates
in-memory state. -/
theorem C3_mutations_persist (hashPw : String → String) (lms lms2 : LMS)
    (t n e pw ph gid lid lpw oid pid cn mpid mcid mchoice sid cid : String)
    (stay : Bool) (cap : Option Int) (cands : List Nat)
    (inp : String → String → Option Rat) :
    (t = "1" ∨ t = "2" → flushed (register_user hashPw lms t n e pw ph gid).1)
    ∧ (lid ∉ lms.logged_in_users → (login hashPw lms lid lpw stay).2.isSome →
        flushed (login hashPw lms lid lpw stay).1)
    ∧ ((alookup oid lms.users).isSome → flushed (logout lms oid))
    ∧ ((create_course lms pid cn cap cands).2.isSome →
        flushed (create_course lms pid cn cap cands).1)
    ∧ ((mchoice = "1" ∨ mchoice = "2") →
        manage_grades lms mpid mcid mchoice inp = some lms2 →
        lms2 = lms ∨ flushed lms2)
    ∧ (enroll lms cid sid).file = lms.file := by
  refine ⟨?_, ?_, ?_, ?_, ?_, ?_⟩
  · rintro (rfl | rfl) <;> simp [register_user, save_data, flushed]
  · intro hnl hsome
    cases halu : alookup lid lms.users with
    | none => simp [login, hnl, halu] at hsome
    | some u =>
        by_cases hck : check_password hashPw u lpw
        · simp [login, hnl, halu, hck, save_data, flushed]
        · simp [login, hnl, halu, hck] at hsome
  · intro h
    cases halu : alookup oid lms.users with
    | none => simp [halu] at h
    | some u => simp [logout, halu, save_data, flushed]
  · intro h
    cases cap with
    | none => simp [create_course] at h
    | some c =>
        cases hf : cands.find? (fun n => !amem (toString n) lms.courses) with
        | none => simp [create_course, hf] at h
        | some m =>
            cases hp : alookup pid lms.users with
            | none => simp [create_course, hf, hp] at h
            | some p => simp [create_course, hf, hp, save_data, flushed]
  · intro hch hm
    unfold manage_grades at hm
    cases hp : alookup mpid lms.users with
    | none =>
        simp only [hp, Option.some.injEq] at hm
        exact Or.inl hm.symm
    | some prof =>
        simp only [hp] at hm
        by_cases hcl : mcid ∈ prof.courseList
        · rw [if_pos hcl] at hm
          cases hc : alookup mcid lms.courses with
          | none => simp [hc] at hm
          | some course =>
              simp only [hc] at hm
              rcases hch with rfl | rfl
              · rw [if_pos rfl] at hm
                cases he : enter_grades course inp with
                | none => simp [he] at hm
                | some course' =>
                    simp only [he, Option.some.injEq] at hm
                    exact Or.inr (hm ▸ flushed_save_data _)
              · rw [if_neg (by decide), if_pos rfl] at hm
                simp only [Option.some.injEq] at hm
                exact Or.inr (hm ▸ flushed_save_data _)
        · rw [if_neg hcl] at hm
          exact Or.inl (Option.some_injective _ hm).symm
  · cases h1 : alookup cid lms.courses <;> cases h2 : alookup sid lms.users <;>
      simp [enroll, h1, h2]

/-- `lmsXc` after the professor toggles grade visibility on course
1234. -/
def mg2X : LMS := (manage_grades lmsXc "1001" "1234" "2" (fun _ _ => none)).getD lmsX

/-- Witness for C3 on concrete operations over the fixture state. -/
theorem C3_mutations_persist_w :
    flushed (register_user hashX lmsXc "1" "N" "e" "p" "ph" "400000003").1
    ∧ flushed (login hashX lmsXc "1001" "pw" true).1
    ∧ flushed (logout lmsXc "1001")
    ∧ flushed (create_course lmsXc "1001" "Phys" (some 2) [5678]).1
    ∧ (mg2X = lmsXc ∨ flushed mg2X)
    ∧ (enroll lmsXc "1234" "400000001").file = lmsXc.file := by
  have h := C3_mutations_persist hashX lmsXc mg2X "1" "N" "e" "p" "ph" "400000003"
      "1001" "pw" "1001" "1001" "Phys" "1001" "1234" "2" "400000001" "1234" true
      (some 2) [5678] (fun _ _ => none)
  exact ⟨h.1 (Or.inl rfl), h.2.1 (by decide) (by decide), h.2.2.1 (by decide),
    h.2.2.2.1 (by decide), h.2.2.2.2.1 (Or.inr rfl) (by decide), h.2.2.2.2.2⟩

/-- C3 as frozen is false: a successful enroll mutates the in-memory
registry (the student's enrolled-course list changes) yet leaves the
durable file untouched, so the file no longer reflects the state. -/
theorem C3_claim_cex :
    (enroll lmsXc "1234" "400000001").users ≠ lmsXc.users ∧
    (enroll lmsXc "1234" "400000001").file = lmsXc.file ∧
    (enroll lmsXc "1234" "400000001").file
      ≠ some (save_users (enroll lmsXc "1234" "400000001").users) := by
  decide

/-! ### C4 -/

/-- The per-course grade-record invariant: the grade dict has one record
per key, and every enrolled student has a record whose component keys are
exactly the course's declared components. -/
def gradeInv (c : Course) : Prop :=
  (c.student_grades.map Prod.fst).Nodup ∧
  ∀ sid ∈ c.students,
    (alookup sid c.student_grades).map (fun r => r.map Prod.fst)
      = some (c.grade_components.map Prod.fst)

/-- One grade-entry cell preserves the keyed-record shape: the grade dict
keys stay duplicate-free and every student of the course keeps a record
with exactly the declared component keys. -/
theorem set_grade_cell_preserve (comps : List String) (students : List String)
    (sg sg' : List (String × List (String × Rat))) (sid comp : String) (v : Option Rat)
    (hcell : set_grade_cell sg sid comp v = some sg') (hcomp : comp ∈ comps)
    (hnd : (sg.map Prod.fst).Nodup)
    (hP : ∀ s ∈ students, (alookup s sg).map (fun r => r.map Prod.fst) = some comps) :
    (sg'.map Prod.fst).Nodup ∧
      ∀ s ∈ students, (alookup s sg').map (fun r => r.map Prod.fst) = some comps := by
  cases v with
  | none =>
      simp only [set_grade_cell, Option.some.injEq] at hcell
      exact hcell ▸ ⟨hnd, hP⟩
  | some g =>
      cases halm : alookup sid sg with
      | none => simp [set_grade_cell, halm] at hcell
      | some rec =>
          simp only [set_grade_cell, halm, Option.some.injEq] at hcell
          subst hcell
          refine ⟨aset_map_fst_nodup _ hnd, ?_⟩
          intro s hs
          by_cases hss : s = sid
          · subst hss
            have hrec : rec.map Prod.fst = comps := by
              have := hP s hs
              rw [halm] at this
              simpa using this
            rw [alookup_aset_self]
            have hkeys : (aset comp g rec).map Prod.fst = rec.map Prod.fst :=
              aset_map_fst_of_mem g (by rw [hrec]; exact hcomp)
            simp [hkeys, hrec]
          · rw [alookup_aset_ne _ _ (fun he => hss he.symm)]
            exact hP s hs

/-- The inner component fold of `enter_grades` propagates a dead state. -/
theorem inner_fold_none (inp : String → String → Option Rat) (sid : String)
    (comps : List (String × Rat)) :
    comps.foldl
      (fun acc2 p =>
        match acc2 with
        | none => none
        | some sg => set_grade_cell sg sid p.1 (inp sid p.1))
      (none : Option (List (String × List (String × Rat)))) = none := by
  induction comps with
  | nil => rfl
  | cons p tl ih => simpa using ih

/-- The inner component fold of `enter_grades` preserves the keyed-record
shape, as long as every visited component is declared. -/
theorem inner_fold_preserve (inp : String → String → Option Rat) (sid : String)
    (compsKeys : List String) (students : List String)
    (comps : List (String × Rat)) (sg sg' : List (String × List (String × Rat)))
    (hsub : ∀ p ∈ comps, p.1 ∈ compsKeys)
    (hfold : comps.foldl
      (fun acc2 p =>
        match acc2 with
        | none => none
        | some sg => set_grade_cell sg sid p.1 (inp sid p.1))
      (some sg) = some sg')
    (hnd : (sg.map Prod.fst).Nodup)
    (hP : ∀ s ∈ students, (alookup s sg).map (fun r => r.map Prod.fst) = some compsKeys) :
    (sg'.map Prod.fst).Nodup ∧
      ∀ s ∈ students, (alookup s sg').map (fun r => r.map Prod.fst) = some compsKeys := by
  induction comps generalizing sg with
  | nil =>
      simp only [List.foldl_nil, Option.some.injEq] at hfold
      exact hfold ▸ ⟨hnd, hP⟩
  | cons p tl ih =>
      simp only [List.foldl_cons] at hfold
      cases hcell : set_grade_cell sg sid p.1 (inp sid p.1) with
      | none =>
          rw [hcell, inner_fold_none] at hfold
          exact absurd hfold (by simp)
      | some sg1 =>
          rw [hcell] at hfold
          have h1 := set_grade_cell_preserve compsKeys students sg sg1 sid p.1 _
            hcell (hsub p (by simp)) hnd hP
          exact ih sg1 (fun q hq => hsub q (by simp [hq])) hfold h1.1 h1.2

/-- The outer student fold of `enter_grades` propagates a dead state. -/
theorem outer_fold_none (inp : String → String → Option Rat)
    (comps : List (String × Rat)) (studs : List String) :
    studs.foldl
      (fun acc sid =>
        comps.foldl
          (fun acc2 p =>
            match acc2 with
            | none => none
            | some sg => set_grade_cell sg sid p.1 (inp sid p.1))
          acc)
      (none : Option (List (String × List (String × Rat)))) = none := by
  induction studs with
  | nil => rfl
  | cons q tq ih =>
      simp only [List.foldl_cons]
      rw [inner_fold_none]
      exact ih

/-- `enter_grades` preserves the grade-record invariant. -/
theorem enter_grades_preserve (c c' : Course) (inp : String → String → Option Rat)
    (hinv : gradeInv c) (h : enter_grades c inp = some c') : gradeInv c' := by
  unfold enter_grades at h
  cases hfold : c.students.foldl
      (fun acc sid =>
        c.grade_components.foldl
          (fun acc2 p =>
            match acc2 with
            | none => none
            | some sg => set_grade_cell sg sid p.1 (inp sid p.1))
          acc)
      (some c.student_grades) with
  | none => rw [hfold] at h; exact absurd h (by simp)
  | some sg' =>
      rw [hfold] at h
      have h2 := Option.some.inj h
      subst h2
      have key : ∀ (studs : List String) (sg : List (String × List (String × Rat))),
          (sg.map Prod.fst).Nodup →
          (∀ s ∈ c.students, (alookup s sg).map (fun r => r.map Prod.fst)
            = some (c.grade_components.map Prod.fst)) →
          ∀ sg2, studs.foldl
            (fun acc sid =>
              c.grade_components.foldl
                (fun acc2 p =>
                  match acc2 with
                  | none => none
                  | some sg => set_grade_cell sg sid p.1 (inp sid p.1))
                acc)
            (some sg) = some sg2 →
          (sg2.map Prod.fst).Nodup ∧
            ∀ s ∈ c.students, (alookup s sg2).map (fun r => r.map Prod.fst)
              = some (c.grade_components.map Prod.fst) := by
        intro studs
        induction studs with
        | nil =>
            intro sg hnd hP sg2 hf
            simp only [List.foldl_nil, Option.some.injEq] at hf
            exact hf ▸ ⟨hnd, hP⟩
        | cons sid tl ih =>
            intro sg hnd hP sg2 hf
            simp only [List.foldl_cons] at hf
            cases hstep : c.grade_components.foldl
                (fun acc2 p =>
                  match acc2 with
                  | none => none
                  | some sg => set_grade_cell sg sid p.1 (inp sid p.1))
                (some sg) with
            | none =>
                rw [hstep, outer_fold_none] at hf
                exact absurd hf (by simp)
            | some sg1 =>
                rw [hstep] at hf
                have h1 := inner_fold_preserve inp sid (c.grade_components.map Prod.fst)
                  c.students c.grade_components sg sg1
                  (fun p hp => List.mem_map_of_mem Prod.fst hp) hstep hnd hP
                exact ih sg1 h1.1 h1.2 sg2 hf
      exact key c.students c.student_grades hinv.1 hinv.2 sg' hfold

/-- C4: a fresh course satisfies the grade-record invariant; enroll,
grade entry and a visibility flip preserve it; and immediately after a
successful enrollment the student's record maps every declared component
to 0. -/
theorem C4_grade_records (id name pid : String) (cap : Int) (c c2 : Course)
    (s : UserRec) (b : Bool) (inp : String → String → Option Rat)
    (hinv : gradeInv c) :
    gradeInv (mkCourse id name pid cap)
    ∧ gradeInv (c.add_student s).1
    ∧ (enter_grades c inp = some c2 → gradeInv c2)
    ∧ gradeInv { c with is_grades_visible := b }
    ∧ ((c.add_student s).2.2 = EnrollOutcome.enrolled →
        alookup s.id (c.add_student s).1.student_grades
          = some (c.grade_components.map (fun p => (p.1, (0 : Rat))))) := by
  refine ⟨by simp [gradeInv, mkCourse], ?_, fun h => enter_grades_preserve c c2 inp hinv h,
    ⟨hinv.1, hinv.2⟩, ?_⟩
  · unfold Course.add_student
    split
    · refine ⟨aset_map_fst_nodup _ hinv.1, ?_⟩
      intro sid hsid
      by_cases hss : sid = s.id
      · subst hss
        rw [alookup_aset_self]
        simp
      · simp only [List.mem_append, List.mem_singleton] at hsid
        rcases hsid with hsid | hsid
        · rw [alookup_aset_ne _ _ (fun he => hss he.symm)]
          exact hinv.2 sid hsid
        · exact absurd hsid hss
    · exact hinv
  · unfold Course.add_student
    split
    · intro _
      rw [alookup_aset_self]
    · intro h
      exact absurd h (by simp)

/-- Witness for C4 on the concrete full course and a concrete grade-entry
run. -/
theorem C4_grade_records_w :
    gradeInv (mkCourse "3000" "n" "1001" 2)
    ∧ gradeInv (fullX.add_student studX2).1
    ∧ (enter_grades fullX (fun _ c => if c = "Midterm" then some 87 else none)
        = some ((enter_grades fullX (fun _ c => if c = "Midterm" then some 87 else none)).getD fullX) →
        gradeInv ((enter_grades fullX (fun _ c => if c = "Midterm" then some 87 else none)).getD fullX))
    ∧ gradeInv { fullX with is_grades_visible := true }
    ∧ ((fullX.add_student studX2).2.2 = EnrollOutcome.enrolled →
        alookup studX2.id (fullX.add_student studX2).1.student_grades
          = some (fullX.grade_components.map (fun p => (p.1, (0 : Rat))))) :=
  C4_grade_records "3000" "n" "1001" 2 fullX
    ((enter_grades fullX (fun _ c => if c = "Midterm" then some 87 else none)).getD fullX)
    studX2 true (fun _ c => if c = "Midterm" then some 87 else none) ⟨by decide, by decide⟩

/-! ### C5 -/

/-- C5 (amended): createCourse fails with InvalidInput exactly when the
capacity input fails integer parsing — any parsed integer, including zero
and negative values, is accepted — and on success it takes the first
random draw (each in 1000..9999, hence 4 digits) whose decimal string does
not collide with an existing course id, registers the course under that
id, appends the id to the professor's owned list, and persists. -/
theorem C5_create_course (lms : LMS) (pid cname : String) (cands : List Nat)
    (cap : Int) (n : Nat) (p : UserRec)
    (hr : ∀ m ∈ cands, 1000 ≤ m ∧ m ≤ 9999)
    (hf : cands.find? (fun m => !amem (toString m) lms.courses) = some n)
    (hp : alookup pid lms.users = some p) :
    create_course lms pid cname none cands = (lms, none)
    ∧ (1000 ≤ n ∧ n ≤ 9999)
    ∧ amem (toString n) lms.courses = false
    ∧ (create_course lms pid cname (some cap) cands).2 = some (toString n)
    ∧ alookup (toString n) (create_course lms pid cname (some cap) cands).1.courses
        = some (mkCourse (toString n) cname pid cap)
    ∧ alookup pid (create_course lms pid cname (some cap) cands).1.users
        = some { p with courseList := p.courseList ++ [toString n] }
    ∧ flushed (create_course lms pid cname (some cap) cands).1 := by
  have hmem := List.mem_of_find?_eq_some hf
  have hpred := List.find?_some hf
  have hred : create_course lms pid cname (some cap) cands
      = (save_data
          { lms with
              courses := aset (toString n) (mkCourse (toString n) cname pid cap) lms.courses
              users := aset pid { p with courseList := p.courseList ++ [toString n] } lms.users },
         some (toString n)) := by
    simp only [create_course, hf, hp]
  refine ⟨rfl, hr n hmem, by simpa using hpred, by rw [hred], ?_, ?_, ?_⟩
  · rw [hred]
    exact alookup_aset_self _ _ _
  · rw [hred]
    exact alookup_aset_self _ _ _
  · rw [hred]
    exact flushed_save_data _

/-- The professor record inside `lmsXc` (owned list already holds course
1234). -/
def profXc : UserRec := { profX with courseList := ["1234"] }

/-- Witness for C5: creating a second course over `lmsXc` with the random
stream first drawing the colliding id 1234 and then the fresh 5678. -/
theorem C5_create_course_w :
    create_course lmsXc "1001" "Chem" none [1234, 5678] = (lmsXc, none)
    ∧ (1000 ≤ 5678 ∧ 5678 ≤ 9999)
    ∧ amem (toString 5678) lmsXc.courses = false
    ∧ (create_course lmsXc "1001" "Chem" (some 2) [1234, 5678]).2 = some (toString 5678)
    ∧ alookup (toString 5678) (create_course lmsXc "1001" "Chem" (some 2) [1234, 5678]).1.courses
        = some (mkCourse (toString 5678) "Chem" "1001" 2)
    ∧ alookup "1001" (create_course lmsXc "1001" "Chem" (some 2) [1234, 5678]).1.users
        = some { profXc with courseList := profXc.courseList ++ [toString 5678] }
    ∧ flushed (create_course lmsXc "1001" "Chem" (some 2) [1234, 5678]).1 :=
  C5_create_course lmsXc "1001" "Chem" [1234, 5678] 2 5678 profXc
    (by decide) (by decide) (by decide)

/-- C5 as frozen is false: capacity 0 is not a positive integer, yet
createCourse accepts it and creates a capacity-0 course — only a failed
integer parse is rejected. -/
theorem C5_claim_cex :
    (create_course lmsX "1001" "Zero" (some 0) [1234]).2 = some "1234"
    ∧ (alookup "1234" (create_course lmsX "1001" "Zero" (some 0) [1234]).1.courses).map
        Course.capacity = some 0 := by
  decide

/-! ### C6 -/

/-- C6 (amended): the code has no standalone setGrade operation and no
InvalidComponent error — `manage_grades` iterates exactly over the
course's declared components and enrolled students, so a grade-entry step
only ever runs for an enrolled student and a declared component.  For
such a step: a value that fails float parsing is rejected (the score and
everything else stay unchanged), and a parsed value overwrites the stored
score for that (student, component) pair, leaving every other component
and the record's key set unchanged. -/
theorem C6_grade_entry (sg : List (String × List (String × Rat)))
    (sid comp : String) (rec : List (String × Rat)) (g : Rat)
    (hrec : alookup sid sg = some rec) (hcomp : comp ∈ rec.map Prod.fst) :
    set_grade_cell sg sid comp none = some sg
    ∧ set_grade_cell sg sid comp (some g) = some (aset sid (aset comp g rec) sg)
    ∧ alookup sid (aset sid (aset comp g rec) sg) = some (aset comp g rec)
    ∧ alookup comp (aset comp g rec) = some g
    ∧ (∀ comp2, comp2 ≠ comp → alookup comp2 (aset comp g rec) = alookup comp2 rec)
    ∧ (aset comp g rec).map Prod.fst = rec.map Prod.fst :=
  ⟨rfl, by simp [set_grade_cell, hrec], alookup_aset_self _ _ _,
    alookup_aset_self _ _ _, fun c2 h2 => alookup_aset_ne _ _ (Ne.symm h2),
    aset_map_fst_of_mem g hcomp⟩

/-- A one-student grade dict holding the freshly initialized (all-zero)
record. -/
def recX : List (String × List (String × Rat)) := [("400000001", defaultGradeComponents)]

/-- Witness for C6 on the declared component Midterm of an enrolled
student. -/
theorem C6_grade_entry_w :
    set_grade_cell recX "400000001" "Midterm" none = some recX
    ∧ set_grade_cell recX "400000001" "Midterm" (some 87)
        = some (aset "400000001" (aset "Midterm" 87 defaultGradeComponents) recX)
    ∧ alookup "400000001" (aset "400000001" (aset "Midterm" 87 defaultGradeComponents) recX)
        = some (aset "Midterm" 87 defaultGradeComponents)
    ∧ alookup "Midterm" (aset "Midterm" 87 defaultGradeComponents) = some 87
    ∧ alookup "Final" (aset "Midterm" 87 defaultGradeComponents)
        = alookup "Final" defaultGradeComponents
    ∧ (aset "Midterm" 87 defaultGradeComponents).map Prod.fst
        = defaultGradeComponents.map Prod.fst := by
  have h := C6_grade_entry recX "400000001" "Midterm" defaultGradeComponents 87
    (by decide) (by decide)
  exact ⟨h.1, h.2.1, h.2.2.1, h.2.2.2.1, h.2.2.2.2.1 "Final" (by decide), h.2.2.2.2.2⟩

/-- C6 as frozen is false: a grade-entry step invoked with the undeclared
component "Bogus" does not fail with InvalidComponent — it inserts a new
"Bogus" entry into the student's record and succeeds. -/
theorem C6_claim_cex :
    ¬ ("Bogus" ∈ defaultGradeComponents.map Prod.fst)
    ∧ set_grade_cell [("400000001", defaultGradeComponents)] "400000001" "Bogus" (some 50)
        = some [("400000001", defaultGradeComponents ++ [("Bogus", 50)])] := by
  decide

/-! ### C7 -/

theorem foldl_add_snd (l : List (String × Rat)) (a : Rat) :
    l.foldl (fun a p => a + p.2) a = a + (l.map Prod.snd).sum := by
  induction l generalizing a with
  | nil => simp
  | cons p tl ih => simp [ih, add_assoc]

/-- C7: for a course on the student's list that still exists, the view is
Hidden whenever the visibility flag is off — regardless of what grades are
stored — and when the flag is on it is exactly the stored per-component
scores together with a total equal to their sum. -/
theorem C7_view_grades (lms : LMS) (sid cid : String) (c : Course)
    (hc : alookup cid lms.courses = some c) :
    (c.is_grades_visible = false → view_course_grades lms sid cid = GradesView.hidden)
    ∧ (c.is_grades_visible = true →
        view_course_grades lms sid cid =
          GradesView.visible ((alookup sid c.student_grades).getD [])
            ((((alookup sid c.student_grades).getD []).map Prod.snd).sum)) := by
  constructor
  · intro hv
    simp [view_course_grades, hc, hv]
  · intro hv
    simp [view_course_grades, hc, hv, foldl_add_snd]

/-- `lmsXc` after student 400000001 enrolls in course 1234. -/
def lmsE : LMS := enroll lmsXc "1234" "400000001"

/-- Console grade input: 87 for Midterm, a parse failure elsewhere. -/
def inp87 : String → String → Option Rat := fun _ c => if c = "Midterm" then some 87 else none

/-- `lmsE` after the professor enters the Midterm grade. -/
def lmsEG : LMS := (manage_grades lmsE "1001" "1234" "1" inp87).getD lmsE

/-- `lmsEG` after the professor toggles grade visibility on. -/
def lmsEGV : LMS := (manage_grades lmsEG "1001" "1234" "2" inp87).getD lmsEG

def courseE : Course := (alookup "1234" lmsE.courses).getD (mkCourse "0" "x" "0" 0)

def courseV : Course := (alookup "1234" lmsEGV.courses).getD (mkCourse "0" "x" "0" 0)

/-- Witness for C7: the enrolled student's view is Hidden before the
toggle and the exact scores plus sum after it. -/
theorem C7_view_grades_w :
    view_course_grades lmsE "400000001" "1234" = GradesView.hidden
    ∧ view_course_grades lmsEGV "400000001" "1234" =
        GradesView.visible ((alookup "400000001" courseV.student_grades).getD [])
          ((((alookup "400000001" courseV.student_grades).getD []).map Prod.snd).sum) :=
  ⟨(C7_view_grades lmsE "400000001" "1234" courseE (by decide)).1 (by decide),
   (C7_view_grades lmsEGV "400000001" "1234" courseV (by decide)).2 (by decide)⟩

/-! ### C8 -/

/-- C8: if the id is already in the active-session set, login returns
that session's user immediately, with no state change and no dependence on
the supplied password or stay choice; otherwise, for a registered id, the
call succeeds exactly when the supplied password hashes to the stored
hash — on success it records the stay choice on the user, adds the id to
the session set exactly when that choice is true, and persists; on a hash
mismatch it signals InvalidCredentials (returns none, state unchanged). -/
theorem C8_login (hashPw : String → String) (lms : LMS) (id pw pw2 : String)
    (stay stay2 : Bool) (u : UserRec) :
    (id ∈ lms.logged_in_users →
        login hashPw lms id pw stay = (lms, alookup id lms.users)
        ∧ login hashPw lms id pw stay = login hashPw lms id pw2 stay2)
    ∧ (id ∉ lms.logged_in_users → alookup id lms.users = some u →
        ((login hashPw lms id pw stay).2.isSome = true ↔ hashPw pw = u.password)
        ∧ (hashPw pw = u.password →
            (login hashPw lms id pw stay).2 = some { u with stay_logged_in := stay }
            ∧ (login hashPw lms id pw stay).1.users
                = aset id { u with stay_logged_in := stay } lms.users
            ∧ (login hashPw lms id pw stay).1.logged_in_users
                = (if stay then lms.logged_in_users ++ [id] else lms.logged_in_users)
            ∧ flushed (login hashPw lms id pw stay).1)
        ∧ (hashPw pw ≠ u.password → login hashPw lms id pw stay = (lms, none))) := by
  constructor
  · intro h
    constructor <;> simp [login, h]
  · intro hn hu
    by_cases hck : hashPw pw = u.password
    · have hcp : check_password hashPw u pw = true := by simp [check_password, hck]
      have hred : login hashPw lms id pw stay
          = (save_data
              { lms with
                  users := aset id { u with stay_logged_in := stay } lms.users
                  logged_in_users :=
                    if stay then lms.logged_in_users ++ [id] else lms.logged_in_users },
             some { u with stay_logged_in := stay }) := by
        simp [login, hn, hu, hcp]
      refine ⟨?_, fun _ => ⟨?_, ?_, ?_, ?_⟩, fun hne => absurd hck hne⟩
      · rw [hred]
        simp [hck]
      · rw [hred]
      · rw [hred]
        rfl
      · rw [hred]
        rfl
      · rw [hred]
        exact flushed_save_data _
    · have hcp : check_password hashPw u pw = false := by
        simp [check_password, hck]
      have hred : login hashPw lms id pw stay = (lms, none) := by
        simp [login, hn, hu, hcp]
      refine ⟨?_, fun h => absurd h hck, fun _ => hred⟩
      rw [hred]
      simp [hck]

/-- `lmsX` after professor 1001 logs in with the stay-logged-in choice. -/
def lmsL : LMS := (login hashX lmsX "1001" "pw" true).1

/-- Witness for C8: the logged-in professor short-circuits any password;
the student's fresh login succeeds on the right password, persists, and
fails on a wrong one. -/
theorem C8_login_w :
    (login hashX lmsL "1001" "whatever" false = (lmsL, alookup "1001" lmsL.users)
      ∧ login hashX lmsL "1001" "whatever" false = login hashX lmsL "1001" "other" true)
    ∧ ((login hashX lmsX "400000001" "pw" true).2.isSome = true ↔ hashX "pw" = studX.password)
    ∧ (login hashX lmsX "400000001" "pw" true).2 = some { studX with stay_logged_in := true }
    ∧ flushed (login hashX lmsX "400000001" "pw" true).1
    ∧ login hashX lmsX "400000001" "bad" false = (lmsX, none) := by
  have h1 := (C8_login hashX lmsL "1001" "whatever" "other" false true studX).1 (by decide)
  have h2 := (C8_login hashX lmsX "400000001" "pw" "pw" true true studX).2 (by decide) (by decide)
  have h3 := (C8_login hashX lmsX "400000001" "bad" "bad" false false studX).2 (by decide) (by decide)
  exact ⟨h1, h2.1, (h2.2.1 (by decide)).1, (h2.2.1 (by decide)).2.2.2, h3.2.2 (by decide)⟩

/-! ### C9 -/

/-- C9: the code does not enforce at-most-once enrollment.  Concretely:
with course 1234 (capacity 3) holding student 400000001 with a Midterm
grade of 87, a second enroll of the same student appends a duplicate entry
to the course's student list and to the student's enrolled-course list,
and re-initializes the grade record to all zeros (losing the 87). -/
theorem C9_duplicate_enroll :
    ((alookup "1234" lmsEG.courses).map (fun c => c.students)) = some ["400000001"]
    ∧ ((alookup "1234" lmsEG.courses).map (fun c => alookup "400000001" c.student_grades))
        = some (some (aset "Midterm" 87 defaultGradeComponents))
    ∧ ((alookup "1234" (enroll lmsEG "1234" "400000001").courses).map (fun c => c.students))
        = some ["400000001", "400000001"]
    ∧ ((alookup "1234" (enroll lmsEG "1234" "400000001").courses).map
        (fun c => alookup "400000001" c.student_grades))
        = some (some defaultGradeComponents)
    ∧ ((alookup "400000001" (enroll lmsEG "1234" "400000001").users).map
        (fun u => u.courseList)) = some ["1234", "1234"] := by
  decide

/-! ### C10 -/

/-- Every id in the active-session set maps to a user whose
stay-logged-in flag is set. -/
abbrev sessionInvP (users : List (String × UserRec)) (logged : List String) : Prop :=
  ∀ id ∈ logged, (alookup id users).map UserRec.stay_logged_in = some true

abbrev sessionInv (lms : LMS) : Prop := sessionInvP lms.users lms.logged_in_users

/-- Updating a registry entry without changing its stay-logged-in flag
preserves the session invariant. -/
theorem sessionInvP_aset (users : List (String × UserRec)) (logged : List String)
    (k : String) (u u' : UserRec) (hinv : sessionInvP users logged)
    (hu : alookup k users = some u) (hflag : u'.stay_logged_in = u.stay_logged_in) :
    sessionInvP (aset k u' users) logged := by
  intro id hid
  by_cases hk : id = k
  · subst hk
    have h1 := hinv id hid
    rw [hu] at h1
    rw [alookup_aset_self]
    simpa [hflag] using h1
  · rw [alookup_aset_ne _ _ (fun he => hk he.symm)]
    exact hinv id hid

/-- `manage_grades` never touches the user registry or the session set. -/
theorem manage_grades_users (lms lms2 : LMS) (mpid mcid mchoice : String)
    (inp : String → String → Option Rat)
    (hm : manage_grades lms mpid mcid mchoice inp = some lms2) :
    lms2.users = lms.users ∧ lms2.logged_in_users = lms.logged_in_users := by
  unfold manage_grades at hm
  cases hp : alookup mpid lms.users with
  | none =>
      simp only [hp, Option.some.injEq] at hm
      exact hm ▸ ⟨rfl, rfl⟩
  | some prof =>
      simp only [hp] at hm
      by_cases hcl : mcid ∈ prof.courseList
      · rw [if_pos hcl] at hm
        cases hc : alookup mcid lms.courses with
        | none => simp [hc] at hm
        | some course =>
            simp only [hc] at hm
            by_cases h1 : mchoice = "1"
            · rw [if_pos h1] at hm
              cases he : enter_grades course inp with
              | none => simp [he] at hm
              | some course' =>
                  simp only [he, Option.some.injEq] at hm
                  exact hm ▸ ⟨rfl, rfl⟩
            · rw [if_neg h1] at hm
              by_cases h2 : mchoice = "2"
              · rw [if_pos h2] at hm
                simp only [Option.some.injEq] at hm
                exact hm ▸ ⟨rfl, rfl⟩
              · rw [if_neg h2] at hm
                simp only [Option.some.injEq] at hm
                exact hm ▸ ⟨rfl, rfl⟩
      · rw [if_neg hcl] at hm
        simp only [Option.some.injEq] at hm
        exact hm ▸ ⟨rfl, rfl⟩

/-- The `load_data` fold establishes the session invariant: an id is added
to the session set only when the user just stored under it has the flag
set, and with duplicate-free keys no later entry overwrites it. -/
theorem load_inv_aux (entries : List (String × SavedUser)) (acc : List (String × UserRec))
    (lg : List String) (hn : (entries.map Prod.fst).Nodup)
    (hd : ∀ k ∈ entries.map Prod.fst, alookup k acc = none)
    (hinv : sessionInvP acc lg) :
    sessionInvP
      (entries.foldl
        (fun a p =>
          let u := load_user p.2
          (aset p.1 u a.1, if u.stay_logged_in then a.2 ++ [p.1] else a.2))
        (acc, lg)).1
      (entries.foldl
        (fun a p =>
          let u := load_user p.2
          (aset p.1 u a.1, if u.stay_logged_in then a.2 ++ [p.1] else a.2))
        (acc, lg)).2 := by
  induction entries generalizing acc lg with
  | nil => exact hinv
  | cons p tl ih =>
      simp only [List.foldl_cons]
      have hfresh : alookup p.1 acc = none := hd p.1 (by simp)
      rw [List.map_cons, List.nodup_cons] at hn
      have hd' : ∀ k ∈ tl.map Prod.fst,
          alookup k (aset p.1 (load_user p.2) acc) = none := by
        intro k hk
        have hne : p.1 ≠ k := fun he => hn.1 (he ▸ hk)
        rw [alookup_aset_ne _ _ hne]
        exact hd k (by simp [hk])
      have hinv' : sessionInvP (aset p.1 (load_user p.2) acc)
          (if (load_user p.2).stay_logged_in then lg ++ [p.1] else lg) := by
        by_cases hst : (load_user p.2).stay_logged_in
        · rw [if_pos hst]
          intro id hid
          rcases List.mem_append.mp hid with hid | hid
          · have h1 := hinv id hid
            by_cases hk : id = p.1
            · subst hk
              rw [hfresh] at h1
              exact absurd h1 (by simp)
            · rw [alookup_aset_ne _ _ (fun he => hk he.symm)]
              exact h1
          · rw [List.mem_singleton.mp hid, alookup_aset_self]
            simp [hst]
        · rw [if_neg hst]
          intro id hid
          have h1 := hinv id hid
          by_cases hk : id = p.1
          · subst hk
            rw [hfresh] at h1
            exact absurd h1 (by simp)
          · rw [alookup_aset_ne _ _ (fun he => hk he.symm)]
            exact h1
      exact ih _ _ hn.2 hd' hinv'

/-- C10: every user in the active-session set has the stay-logged-in flag
set.  The invariant holds for a fresh state and for a state loaded from
any saved file (with duplicate-free stored ids), and it is preserved by
login, logout, register (with a fresh generated id), enroll, createCourse
and manage_grades. -/
theorem C10_session_flag (hashPw : String → String) (lms lms2 : LMS) (d : SavedData)
    (lid lpw t n e pw ph gid oid sid cid pid cn mpid mcid mchoice : String)
    (stay : Bool) (cap : Option Int) (cands : List Nat)
    (inp : String → String → Option Rat) :
    sessionInv (initLMS none)
    ∧ ((d.users.map Prod.fst).Nodup → sessionInv (initLMS (some d)))
    ∧ (sessionInv lms → sessionInv (login hashPw lms lid lpw stay).1)
    ∧ (sessionInv lms → sessionInv (logout lms oid))
    ∧ (sessionInv lms → alookup gid lms.users = none →
        sessionInv (register_user hashPw lms t n e pw ph gid).1)
    ∧ (sessionInv lms → sessionInv (enroll lms cid sid))
    ∧ (sessionInv lms → sessionInv (create_course lms pid cn cap cands).1)
    ∧ (sessionInv lms → manage_grades lms mpid mcid mchoice inp = some lms2 →
        sessionInv lms2) := by
  refine ⟨?_, ?_, ?_, ?_, ?_, ?_, ?_, ?_⟩
  · intro id hid
    simp [initLMS] at hid
  · intro hn
    exact load_inv_aux d.users [] [] hn (fun k _ => rfl) (fun id hid => absurd hid (by simp))
  · intro hinv
    by_cases hl : lid ∈ lms.logged_in_users
    · simpa [login, hl] using hinv
    · cases hu : alookup lid lms.users with
      | none => simpa [login, hl, hu] using hinv
      | some u =>
          by_cases hck : check_password hashPw u lpw
          · have hred : (login hashPw lms lid lpw stay).1
                = save_data
                  { lms with
                      users := aset lid { u with stay_logged_in := stay } lms.users
                      logged_in_users :=
                        if stay then lms.logged_in_users ++ [lid] else lms.logged_in_users } := by
              simp [login, hl, hu, hck]
            rw [hred]
            intro id hid
            simp only [save_data] at hid ⊢
            by_cases hst : stay
            · rw [if_pos hst] at hid
              rcases List.mem_append.mp hid with hid | hid
              · have hne : id ≠ lid := fun he => hl (he ▸ hid)
                rw [alookup_aset_ne _ _ (fun he => hne he.symm)]
                exact hinv id hid
              · rw [List.mem_singleton.mp hid, alookup_aset_self]
                simp [hst]
            · rw [if_neg hst] at hid
              have hne : id ≠ lid := fun he => hl (he ▸ hid)
              rw [alookup_aset_ne _ _ (fun he => hne he.symm)]
              exact hinv id hid
          · simpa [login, hl, hu, hck] using hinv
  · intro hinv
    cases hu : alookup oid lms.users with
    | none => simpa [logout, hu] using hinv
    | some u =>
        have hred : logout lms oid
            = save_data
              { lms with
                  users := aset oid { u with stay_logged_in := false } lms.users
                  logged_in_users := lms.logged_in_users.filter (fun x => x ≠ oid) } := by
          simp [logout, hu]
        rw [hred]
        intro id hid
        simp only [save_data] at hid ⊢
        rw [List.mem_filter] at hid
        have hne : id ≠ oid := by simpa using hid.2
        rw [alookup_aset_ne _ _ (fun he => hne he.symm)]
        exact hinv id hid.1
  · intro hinv hfresh
    have key : sessionInvP (aset gid (mkUser hashPw UserType.student gid n e pw ph) lms.users)
        lms.logged_in_users ∧
        sessionInvP (aset gid (mkUser hashPw UserType.professor gid n e pw ph) lms.users)
          lms.logged_in_users := by
      constructor <;>
      · intro id hid
        have h1 := hinv id hid
        have hne : id ≠ gid := by
          intro he
          rw [he, hfresh] at h1
          exact absurd h1 (by simp)
        rw [alookup_aset_ne _ _ (fun he => hne he.symm)]
        exact h1
    by_cases h1 : t = "1"
    · simpa [register_user, h1, save_data] using key.1
    · by_cases h2 : t = "2"
      · simpa [register_user, h1, h2, save_data] using key.2
      · simpa [register_user, h1, h2] using hinv
  · intro hinv
    cases hc : alookup cid lms.courses with
    | none => simpa [enroll, hc] using hinv
    | some c =>
        cases hs : alookup sid lms.users with
        | none => simpa [enroll, hc, hs] using hinv
        | some s =>
            have hflag : (c.add_student s).2.1.stay_logged_in = s.stay_logged_in := by
              unfold Course.add_student
              split <;> rfl
            have hred : enroll lms cid sid
                = { lms with
                    courses := aset cid (c.add_student s).1 lms.courses
                    users := aset sid (c.add_student s).2.1 lms.users } := by
              simp [enroll, hc, hs]
            rw [hred]
            exact sessionInvP_aset lms.users lms.logged_in_users sid s _ hinv hs hflag
  · intro hinv
    cases cap with
    | none => exact hinv
    | some capacity =>
        cases hf : cands.find? (fun m => !amem (toString m) lms.courses) with
        | none => simpa [create_course, hf] using hinv
        | some m =>
            cases hp : alookup pid lms.users with
            | none => simpa [create_course, hf, hp] using hinv
            | some p =>
                have hred : (create_course lms pid cn (some capacity) cands).1
                    = save_data
                      { lms with
                          courses := aset (toString m)
                            (mkCourse (toString m) cn pid capacity) lms.courses
                          users := aset pid
                            { p with courseList := p.courseList ++ [toString m] } lms.users } := by
                  simp [create_course, hf, hp]
                rw [hred]
                intro id hid
                simp only [save_data] at hid ⊢
                exact sessionInvP_aset lms.users lms.logged_in_users pid p
                  { p with courseList := p.courseList ++ [toString m] } hinv hp rfl id hid
  · intro hinv hm
    have h := manage_grades_users lms lms2 mpid mcid mchoice inp hm
    intro id hid
    rw [h.1]
    exact hinv id (h.2 ▸ hid)

/-- Over `lmsL`, `manage_grades` with an unknown course id leaves the
state unchanged; used to instantiate the C10 preservation lemma. -/
def mgL : LMS := (manage_grades lmsL "1001" "9999" "1" inp87).getD lmsX

/-- Witness for C10 with professor 1001 logged in (flag set). -/
theorem C10_session_flag_w :
    sessionInv (initLMS none)
    ∧ sessionInv (initLMS (some (save_users lmsL.users)))
    ∧ sessionInv (login hashX lmsL "400000001" "pw" true).1
    ∧ sessionInv (logout lmsL "1001")
    ∧ sessionInv (register_user hashX lmsL "1" "N" "e" "p" "ph" "400000003").1
    ∧ sessionInv (enroll lmsL "1234" "400000001")
    ∧ sessionInv (create_course lmsL "1001" "Math" (some 3) [1234]).1
    ∧ sessionInv mgL := by
  have h := C10_session_flag hashX lmsL mgL (save_users lmsL.users)
      "400000001" "pw" "1" "N" "e" "p" "ph" "400000003" "1001" "400000001" "1234"
      "1001" "Math" "1001" "9999" "1" true (some 3) [1234] inp87
  exact ⟨h.1, h.2.1 (by decide), h.2.2.1 (by decide), h.2.2.2.1 (by decide),
    h.2.2.2.2.1 (by decide) (by decide), h.2.2.2.2.2.1 (by decide),
    h.2.2.2.2.2.2.1 (by decide), h.2.2.2.2.2.2.2 (by decide) (by decide)⟩

end LMSModel
